import Mathlib

/-!
Verification of the real-time audio relay core of the bluegeneration backend.

This file gives a shallow embedding of the relay's data paths:

* the inbound chunker of `WebSocketAudioLoop._send_realtime` (`backend/main.py`),
* the outbound audio pipeline (`audio_in_queue`, the accumulation buffer of
  `_send_audio_to_frontend`, and the end-of-turn drain of `_receive_audio`),
* the transcript aggregator `SimpleSupabaseBackend.add_buffered_transcript`
  and the teardown flush in `SimpleSupabaseBackend.close_session`
  (`backend/simple_supabase_backend.py`),
* `SessionManager.create_session` / `SessionManager.close_session`
  (`backend/session_manager.py`), and
* `LiveAudioBackend._handle_start_audio` (`backend/main.py`).

Bytes are modelled as `Nat`, byte strings as `List Nat`, Python strings as
`List Char`, and Python dicts as association lists with insert-or-replace
semantics.  Asynchronous interleavings are modelled as explicit event lists
over a step function.
-/

/-- Transport chunk size used by `WebSocketAudioLoop._send_realtime` in
`backend/main.py` (`CHUNK_SIZE = 1024`). -/
def CHUNK_SIZE : Nat := 1024

/-- Target playback frame size used by `_send_audio_to_frontend` in
`backend/main.py` (`CHUNK_SIZE * 4`). -/
def TARGET_FRAME : Nat := CHUNK_SIZE * 4

/-- The chunk slicing performed by `_send_realtime` in `backend/main.py`:
`for i in range(0, len(audio_data), CHUNK_SIZE): chunk = audio_data[i:i + CHUNK_SIZE]`,
one upstream `send_realtime_input` call per slice, in order. -/
def chunkBytes (data : List Nat) : List (List Nat) :=
  if data = [] then []
  else data.take CHUNK_SIZE :: chunkBytes (data.drop CHUNK_SIZE)
termination_by data.length
decreasing_by
  have hpos : 0 < data.length := List.length_pos.mpr (by assumption)
  have hk : 0 < CHUNK_SIZE := by norm_num [CHUNK_SIZE]
  simp only [List.length_drop]
  omega

theorem chunkBytes_nil : chunkBytes [] = [] := by
  rw [chunkBytes]
  simp

theorem chunkBytes_cons (d : List Nat) (h : d ≠ []) :
    chunkBytes d = d.take CHUNK_SIZE :: chunkBytes (d.drop CHUNK_SIZE) := by
  rw [chunkBytes]
  simp [h]

/-- Slicing loses no bytes and preserves their order. -/
theorem chunkBytes_flatten (d : List Nat) : (chunkBytes d).flatten = d := by
  induction d using chunkBytes.induct with
  | case1 => simp [chunkBytes_nil]
  | case2 d h ih =>
    rw [chunkBytes_cons d h]
    simp [ih]

/-- Every slice is exactly `CHUNK_SIZE` bytes, except the last slice, which is
nonempty and at most `CHUNK_SIZE` bytes. -/
def wellChunked : List (List Nat) → Bool
  | [] => true
  | c :: rest =>
    if rest.isEmpty then !c.isEmpty && decide (c.length ≤ CHUNK_SIZE)
    else (c.length == CHUNK_SIZE) && wellChunked rest

theorem chunkBytes_ne_nil (d : List Nat) (h : d ≠ []) : chunkBytes d ≠ [] := by
  rw [chunkBytes_cons d h]
  simp

theorem chunkBytes_wellChunked (d : List Nat) : wellChunked (chunkBytes d) = true := by
  induction d using chunkBytes.induct with
  | case1 => simp [chunkBytes_nil, wellChunked]
  | case2 d h ih =>
    rw [chunkBytes_cons d h]
    by_cases hd : d.drop CHUNK_SIZE = []
    · have hlen : d.length ≤ CHUNK_SIZE := by
        have hl := congrArg List.length hd
        simp only [List.length_drop, List.length_nil] at hl
        omega
      have hck : CHUNK_SIZE = 1024 := rfl
      rw [hd, chunkBytes_nil]
      simp [wellChunked, List.isEmpty_iff, List.take_eq_nil_iff, h, List.length_take]
      omega
    · have hlen : CHUNK_SIZE ≤ d.length := by
        by_contra hle
        push_neg at hle
        exact hd (List.drop_eq_nil_of_le (Nat.le_of_lt hle))
      have hne := chunkBytes_ne_nil _ hd
      simp only [wellChunked, List.isEmpty_iff, if_neg hne, Bool.and_eq_true, beq_iff_eq]
      exact ⟨by simp [List.length_take, Nat.min_eq_left hlen], ih⟩

/-- All messages sent upstream by `_send_realtime` across a sequence of queued
audio batches, in order (the no-send-failure run: the per-chunk `try/except`
never takes the failure branch). -/
def upstreamMessages (batches : List (List Nat)) : List (List Nat) :=
  (batches.map chunkBytes).flatten

/-- C1: For every sequence of inbound audio batches processed by
`_send_realtime` while running and with no upstream send failure, the bytes
sent upstream equal, in order and in total, the bytes submitted, and every
upstream message is exactly `CHUNK_SIZE = 1024` bytes except possibly the last
chunk of each batch, which is nonempty and at most `CHUNK_SIZE` bytes. -/
theorem send_realtime_preserves_bytes_and_chunking (batches : List (List Nat)) :
    (upstreamMessages batches).flatten = batches.flatten ∧
    batches.all (fun b => wellChunked (chunkBytes b)) = true := by
  constructor
  · induction batches with
    | nil => rfl
    | cons b bs ih =>
      simp only [upstreamMessages, List.map_cons, List.flatten_cons, List.flatten_append]
      rw [chunkBytes_flatten]
      simpa [upstreamMessages] using congrArg (fun l => b ++ l) ih
  · rw [List.all_eq_true]
    exact fun b _ => chunkBytes_wellChunked b

/-- One iteration bound of the inner while-loop of `_send_audio_to_frontend`
(`backend/main.py`): `while len(audio_buffer) >= CHUNK_SIZE * 4:` sends
`audio_buffer[:CHUNK_SIZE * 4]` and keeps the rest.  The loop removes at least
one byte per iteration, so `buffer.length` is enough fuel. -/
def emitFrames : Nat → List Nat → List (List Nat) → List Nat × List (List Nat)
  | 0, buffer, sent => (buffer, sent)
  | fuel + 1, buffer, sent =>
    if TARGET_FRAME ≤ buffer.length then
      emitFrames fuel (buffer.drop TARGET_FRAME) (sent ++ [buffer.take TARGET_FRAME])
    else (buffer, sent)

/-- The playback-frame loop of `_send_audio_to_frontend`, run to completion. -/
def emitFramesLoop (buffer : List Nat) (sent : List (List Nat)) :
    List Nat × List (List Nat) :=
  emitFrames buffer.length buffer sent

/-- State of the upstream-to-client audio path of `WebSocketAudioLoop`
(`backend/main.py`): `audio_in_queue` (unbounded `asyncio.Queue`), the local
`audio_buffer` of `_send_audio_to_frontend`, and the messages already sent to
the client. -/
structure OutboundState where
  queue : List (List Nat)
  buffer : List Nat
  sent : List (List Nat)
deriving DecidableEq, Repr

/-- The atomic events of the upstream-to-client path:
* `enqueueAudio d` — `_receive_audio` gets `response.data` and calls
  `audio_in_queue.put_nowait(data)`;
* `senderStep` — `_send_audio_to_frontend` dequeues one chunk, appends it to
  `audio_buffer` and runs the frame loop;
* `idleFlush` — the 1-second `asyncio.TimeoutError` branch sends any remaining
  `audio_buffer` and clears it;
* `drainQueue` — the end-of-turn loop of `_receive_audio`:
  `while not audio_in_queue.empty(): audio_in_queue.get_nowait()`. -/
inductive RelayEvent where
  | enqueueAudio (d : List Nat)
  | senderStep
  | idleFlush
  | drainQueue
deriving DecidableEq, Repr

def RelayEvent.isEnqueue : RelayEvent → Bool
  | .enqueueAudio _ => true
  | _ => false

def relayStep (st : OutboundState) : RelayEvent → OutboundState
  | .enqueueAudio d => { st with queue := st.queue ++ [d] }
  | .senderStep =>
    match st.queue with
    | [] => st
    | c :: rest =>
      { queue := rest
        buffer := (emitFramesLoop (st.buffer ++ c) st.sent).1
        sent := (emitFramesLoop (st.buffer ++ c) st.sent).2 }
  | .idleFlush =>
    if st.buffer = [] then st
    else { st with buffer := [], sent := st.sent ++ [st.buffer] }
  | .drainQueue => { st with queue := [] }

def relayRun (st : OutboundState) (evs : List RelayEvent) : OutboundState :=
  evs.foldl relayStep st

/-- The frame loop moves bytes from the buffer to the sent messages without
loss or reordering, whatever the fuel. -/
theorem emitFrames_flatten (fuel : Nat) :
    ∀ (buffer : List Nat) (sent : List (List Nat)),
      (emitFrames fuel buffer sent).2.flatten ++ (emitFrames fuel buffer sent).1 =
        sent.flatten ++ buffer := by
  induction fuel with
  | zero => intro buffer sent; rfl
  | succ fuel ih =>
    intro buffer sent
    by_cases h : TARGET_FRAME ≤ buffer.length
    · simp only [emitFrames, if_pos h]
      rw [ih]
      simp [List.append_assoc]
    · simp only [emitFrames, if_neg h]

theorem emitFramesLoop_flatten (buffer : List Nat) (sent : List (List Nat)) :
    (emitFramesLoop buffer sent).2.flatten ++ (emitFramesLoop buffer sent).1 =
      sent.flatten ++ buffer :=
  emitFrames_flatten buffer.length buffer sent

/-- After the queue has been drained, as long as no new audio is enqueued,
the queue stays empty and everything subsequently delivered to the client is
exactly what was already in the accumulation buffer: the drained chunks are
gone for good. -/
theorem relayRun_no_enqueue (evs : List RelayEvent) :
    ∀ st : OutboundState, st.queue = [] →
      evs.all (fun e => !e.isEnqueue) = true →
      (relayRun st evs).queue = [] ∧
      (relayRun st evs).sent.flatten ++ (relayRun st evs).buffer =
        st.sent.flatten ++ st.buffer := by
  induction evs with
  | nil => intro st hq _; exact ⟨hq, rfl⟩
  | cons e rest ih =>
    intro st hq hall
    simp only [List.all_cons, Bool.and_eq_true] at hall
    have hstep : (relayStep st e).queue = [] ∧
        (relayStep st e).sent.flatten ++ (relayStep st e).buffer =
          st.sent.flatten ++ st.buffer := by
      cases e with
      | enqueueAudio d => simp [RelayEvent.isEnqueue] at hall
      | senderStep => rw [relayStep]; rw [hq]; exact ⟨hq, rfl⟩
      | idleFlush =>
        rw [relayStep]
        by_cases hb : st.buffer = []
        · rw [if_pos hb]; exact ⟨hq, rfl⟩
        · rw [if_neg hb]; exact ⟨hq, by simp⟩
      | drainQueue => exact ⟨rfl, rfl⟩
    have hrec := ih (relayStep st e) hstep.1 hall.2
    constructor
    · simpa [relayRun] using hrec.1
    · have h2 := hrec.2
      rw [relayRun] at h2
      rw [relayRun, List.foldl_cons, h2]
      exact hstep.2

/-- C2 counterexample: a 3-byte chunk is enqueued, the sender moves it into
its accumulation buffer (too short for a 4096-byte frame, so nothing is sent),
then the `Interrupted` turn end drains the queue.  The queue is empty, yet the
stale bytes survive in `audio_buffer` and the next idle flush delivers them to
the client after the interruption — refuting the claim that no byte submitted
before `Interrupted` (including bytes held in the accumulation buffer) is ever
delivered after it. -/
theorem interrupted_stale_buffer_counterexample :
    (relayRun ⟨[], [], []⟩
        [RelayEvent.enqueueAudio [7, 7, 7], RelayEvent.senderStep,
          RelayEvent.drainQueue]).queue = [] ∧
    (relayRun ⟨[], [], []⟩
        [RelayEvent.enqueueAudio [7, 7, 7], RelayEvent.senderStep,
          RelayEvent.drainQueue]).sent = [] ∧
    (relayRun ⟨[], [], []⟩
        [RelayEvent.enqueueAudio [7, 7, 7], RelayEvent.senderStep,
          RelayEvent.drainQueue]).buffer = [7, 7, 7] ∧
    (relayRun ⟨[], [], []⟩
        [RelayEvent.enqueueAudio [7, 7, 7], RelayEvent.senderStep,
          RelayEvent.drainQueue, RelayEvent.idleFlush]).sent = [[7, 7, 7]] := by
  decide

/-- C2 (amended): an `Interrupted`/turn-complete drain empties the outbound
queue immediately and delivers nothing by itself; every chunk still queued at
that moment is discarded and — as long as no new upstream audio arrives — all
audio subsequently delivered to the client consists exactly of the bytes that
were already in the sender's accumulation buffer (which the drain does NOT
clear, so those stale bytes may still reach the client). -/
theorem interrupted_clears_outbound_queue (st : OutboundState) (evs : List RelayEvent)
    (h : evs.all (fun e => !e.isEnqueue) = true) :
    (relayStep st RelayEvent.drainQueue).queue = [] ∧
    (relayStep st RelayEvent.drainQueue).sent = st.sent ∧
    (relayStep st RelayEvent.drainQueue).buffer = st.buffer ∧
    (relayRun (relayStep st RelayEvent.drainQueue) evs).queue = [] ∧
    (relayRun (relayStep st RelayEvent.drainQueue) evs).sent.flatten ++
        (relayRun (relayStep st RelayEvent.drainQueue) evs).buffer =
      st.sent.flatten ++ st.buffer := by
  have hrun := relayRun_no_enqueue evs (relayStep st RelayEvent.drainQueue) rfl h
  exact ⟨rfl, rfl, rfl, hrun.1, hrun.2⟩

theorem interrupted_clears_outbound_queue_witness :
    ([RelayEvent.senderStep, RelayEvent.idleFlush].all (fun e => !e.isEnqueue) = true) ∧
    (relayStep ⟨[[1], [2]], [9], [[5]]⟩ RelayEvent.drainQueue).queue = [] ∧
    (relayRun (relayStep ⟨[[1], [2]], [9], [[5]]⟩ RelayEvent.drainQueue)
        [RelayEvent.senderStep, RelayEvent.idleFlush]).sent.flatten ++
      (relayRun (relayStep ⟨[[1], [2]], [9], [[5]]⟩ RelayEvent.drainQueue)
        [RelayEvent.senderStep, RelayEvent.idleFlush]).buffer = [5, 9] := by
  have h := interrupted_clears_outbound_queue ⟨[[1], [2]], [9], [[5]]⟩
    [RelayEvent.senderStep, RelayEvent.idleFlush] (by decide)
  exact ⟨by decide, h.1, h.2.2.2.2⟩

/-- C10: at the end of every upstream turn iteration of `_receive_audio` —
whatever happened during the turn and not only on interruption — the
`audio_in_queue` drain runs and leaves the inbound-from-upstream queue empty;
the chunks still queued at that moment are discarded, and as long as no new
upstream audio is enqueued, nothing beyond the bytes already moved into the
sender's accumulation buffer is ever delivered to the client. -/
theorem turn_end_drain_discards_queued_audio (st : OutboundState)
    (turnEvs afterEvs : List RelayEvent)
    (h : afterEvs.all (fun e => !e.isEnqueue) = true) :
    (relayStep (relayRun st turnEvs) RelayEvent.drainQueue).queue = [] ∧
    (relayRun (relayStep (relayRun st turnEvs) RelayEvent.drainQueue) afterEvs).queue = [] ∧
    (relayRun (relayStep (relayRun st turnEvs) RelayEvent.drainQueue) afterEvs).sent.flatten ++
        (relayRun (relayStep (relayRun st turnEvs) RelayEvent.drainQueue) afterEvs).buffer =
      (relayRun st turnEvs).sent.flatten ++ (relayRun st turnEvs).buffer := by
  have hrun := relayRun_no_enqueue afterEvs
    (relayStep (relayRun st turnEvs) RelayEvent.drainQueue) rfl h
  exact ⟨rfl, hrun.1, hrun.2⟩

theorem turn_end_drain_discards_queued_audio_witness :
    ([RelayEvent.idleFlush].all (fun e => !e.isEnqueue) = true) ∧
    (relayStep (relayRun ⟨[], [], []⟩ [RelayEvent.enqueueAudio [1, 2]])
        RelayEvent.drainQueue).queue = [] ∧
    (relayRun (relayStep (relayRun ⟨[], [], []⟩ [RelayEvent.enqueueAudio [1, 2]])
          RelayEvent.drainQueue) [RelayEvent.idleFlush]).sent.flatten ++
      (relayRun (relayStep (relayRun ⟨[], [], []⟩ [RelayEvent.enqueueAudio [1, 2]])
          RelayEvent.drainQueue) [RelayEvent.idleFlush]).buffer =
      (relayRun ⟨[], [], []⟩ [RelayEvent.enqueueAudio [1, 2]]).sent.flatten ++
        (relayRun ⟨[], [], []⟩ [RelayEvent.enqueueAudio [1, 2]]).buffer := by
  have h := turn_end_drain_discards_queued_audio ⟨[], [], []⟩
    [RelayEvent.enqueueAudio [1, 2]] [RelayEvent.idleFlush] (by decide)
  exact ⟨by decide, h.1, h.2.2⟩

/-- `put_nowait` on `self.audio_in_queue = asyncio.Queue()` (`backend/main.py`,
`WebSocketAudioLoop.start`): the outbound-to-client queue is created with no
`maxsize`, so every enqueue simply appends. -/
def audio_in_enqueue (q : List (List Nat)) (d : List Nat) : List (List Nat) :=
  q ++ [d]

/-- `self.out_queue = asyncio.Queue(maxsize=10)` (`backend/main.py`,
`WebSocketAudioLoop.start`). -/
def OUT_QUEUE_MAXSIZE : Nat := 10

/-- `await self.out_queue.put(...)` in `WebSocketAudioLoop.send_audio`:
appends when there is room; when the queue is full the producer suspends
(`none`).  No element is ever discarded and no drop counter exists. -/
def out_queue_put (q : List (List Nat)) (d : List Nat) : Option (List (List Nat)) :=
  if q.length < OUT_QUEUE_MAXSIZE then some (q ++ [d]) else none

/-- C9 counterexample: eleven chunks enqueued on the outbound-to-client queue
are all retained, in order, with the oldest still at the head — the queue is
unbounded (its length exceeds 10, the only queue bound configured in the
relay) and nothing is dropped; and the one bounded queue of the loop
(`out_queue`, toward upstream) reacts to being full by blocking the producer,
not by dropping the oldest item. -/
theorem outbound_queue_drop_oldest_counterexample :
    ((List.range 11).map (fun i => [i])).foldl audio_in_enqueue [] =
      (List.range 11).map (fun i => [i]) ∧
    (((List.range 11).map (fun i => [i])).foldl audio_in_enqueue []).length = 11 ∧
    OUT_QUEUE_MAXSIZE < 11 ∧
    (((List.range 11).map (fun i => [i])).foldl audio_in_enqueue []).head? = some [0] ∧
    out_queue_put ((List.range 10).map (fun i => [i])) [99] = none := by
  decide

/-- C9 (amended): neither queue of the relay loop drops audio.  The
outbound-to-client queue (`audio_in_queue`) is unbounded: every enqueue
appends the new item and keeps every previous item.  The bounded queue is the
inbound-to-upstream `out_queue` (maxsize 10), and a `put` on a full `out_queue`
blocks the producer (`none`) instead of dropping the oldest item; no drop
counter exists anywhere in the loop. -/
theorem relay_queues_never_drop (q : List (List Nat)) (d : List Nat) :
    audio_in_enqueue q d = q ++ [d] ∧
    (audio_in_enqueue q d).length = q.length + 1 ∧
    (OUT_QUEUE_MAXSIZE ≤ q.length → out_queue_put q d = none) ∧
    (∀ r, out_queue_put q d = some r → r = q ++ [d]) := by
  refine ⟨rfl, by simp [audio_in_enqueue], ?_, ?_⟩
  · intro hfull
    rw [out_queue_put, if_neg (by omega)]
  · intro r hr
    rw [out_queue_put] at hr
    by_cases hlt : q.length < OUT_QUEUE_MAXSIZE
    · rw [if_pos hlt] at hr
      exact (Option.some_injective _ hr).symm
    · rw [if_neg hlt] at hr
      exact absurd hr (by simp)

theorem relay_queues_never_drop_witness :
    (OUT_QUEUE_MAXSIZE ≤ ((List.range 10).map (fun i => [i])).length) ∧
    out_queue_put ((List.range 10).map (fun i => [i])) [99] = none ∧
    audio_in_enqueue ((List.range 10).map (fun i => [i])) [99] =
      ((List.range 10).map (fun i => [i])) ++ [[99]] := by
  refine ⟨by decide, ?_, ?_⟩
  · exact (relay_queues_never_drop ((List.range 10).map (fun i => [i])) [99]).2.2.1 (by decide)
  · exact (relay_queues_never_drop ((List.range 10).map (fun i => [i])) [99]).1

/-- Python `str.strip()`: remove whitespace from both ends. -/
def pyStrip (s : List Char) : List Char :=
  ((s.dropWhile Char.isWhitespace).reverse.dropWhile Char.isWhitespace).reverse

/-- Per-(session, speaker) aggregation state of
`SimpleSupabaseBackend.add_buffered_transcript`
(`backend/simple_supabase_backend.py`): the accumulated fragment buffer
(`self.transcript_buffers[session_id][speaker]`) and whether a deferred
6-second flush timer is pending (`self.transcript_timers[...]['timer']`). -/
structure AggState where
  buffer : List Char
  timerPending : Bool
deriving DecidableEq, Repr

/-- Result of one `add_buffered_transcript` call: the new per-speaker state
and the utterance handed to `add_transcript`, if any. -/
structure AggOut where
  state : AggState
  emitted : Option (List Char)
deriving DecidableEq, Repr

/-- The `should_save_now` condition of `add_buffered_transcript`, verbatim:
`accumulated_text.endswith('.') or ... ('!') or ... ('?') or
len(accumulated_text) > 300 or '. ' in ... or '! ' in ... or '? ' in ...`. -/
def should_save_now (acc : List Char) : Bool :=
  (acc.getLast? == some '.') || (acc.getLast? == some '!') ||
    (acc.getLast? == some '?') || decide (300 < acc.length) ||
    decide (['.', ' '] <:+: acc) || decide (['!', ' '] <:+: acc) ||
    decide (['?', ' '] <:+: acc)

/-- `SimpleSupabaseBackend.add_buffered_transcript` on one (session, speaker)
buffer.  Mirrors the source line by line: blank fragments are ignored
(`if not text or not text.strip(): return`); fragments of stripped length ≤ 2
with no sentence-terminal character are ignored; otherwise the STRIPPED
fragment is appended to the buffer, the pending timer is cancelled, and the
buffer is flushed immediately when `should_save_now` holds on
`accumulated_text = buffer.strip()` — emitting the accumulated text only when
`len(accumulated_text) > 8` but clearing the buffer either way — or else a new
6-second timer is armed. -/
def add_buffered_transcript (st : AggState) (text : List Char) : AggOut :=
  if pyStrip text = [] then ⟨st, none⟩
  else if (pyStrip text).length ≤ 2 ∧
      ¬('.' ∈ pyStrip text ∨ '!' ∈ pyStrip text ∨ '?' ∈ pyStrip text) then
    ⟨st, none⟩
  else if should_save_now (pyStrip (st.buffer ++ pyStrip text)) then
    ⟨⟨[], false⟩,
      if pyStrip (st.buffer ++ pyStrip text) ≠ [] ∧
          8 < (pyStrip (st.buffer ++ pyStrip text)).length then
        some (pyStrip (st.buffer ++ pyStrip text))
      else none⟩
  else ⟨⟨st.buffer ++ pyStrip text, true⟩, none⟩

/-- A sequence of fragments appended in order to an initially empty
(session, speaker) buffer, with every fragment arriving before the 6-second
idle timer fires; returns the final state and every utterance emitted. -/
def runAggregator (fragments : List (List Char)) : AggState × List (List Char) :=
  fragments.foldl
    (fun p t =>
      ((add_buffered_transcript p.1 t).state,
        p.2 ++ (add_buffered_transcript p.1 t).emitted.toList))
    (⟨[], false⟩, [])

/-- C3 at the claim's input: appending "I th", "ink the", " answer is 4." to an
empty buffer emits exactly one utterance, but its text is
"I think theanswer is 4.", not the claimed "I think the answer is 4.":
`new_text = text.strip()` removes the leading space of the third fragment
before concatenation, so concatenation is NOT verbatim — whitespace is
removed, contradicting the claim and the source's own comment that no space
need be inserted because the upstream fragments already include them. -/
theorem aggregator_strips_fragment_whitespace :
    (runAggregator ["I th".toList, "ink the".toList, " answer is 4.".toList]).2 =
      ["I think theanswer is 4.".toList] ∧
    "I think theanswer is 4.".toList ≠ "I think the answer is 4.".toList := by
  decide

/-- The immediate-flush condition as the claim words it: the accumulated text
ends with one of the three sentence terminals, or contains a sentence terminal
followed by a space as a substring, or exceeds 300 characters. -/
def flushConditionSpec (acc : List Char) : Prop :=
  acc.getLast? = some '.' ∨ acc.getLast? = some '!' ∨ acc.getLast? = some '?' ∨
    ['.', ' '] <:+: acc ∨ ['!', ' '] <:+: acc ∨ ['?', ' '] <:+: acc ∨
    300 < acc.length

theorem should_save_now_iff (acc : List Char) :
    should_save_now acc = true ↔ flushConditionSpec acc := by
  simp only [should_save_now, flushConditionSpec, Bool.or_eq_true, beq_iff_eq,
    decide_eq_true_eq]
  tauto

/-- C4: for every buffer state and every fragment that passes the noise gates
(so that it is actually appended), the aggregator flushes immediately — clears
the buffer — if and only if the accumulated text ends with '.', '!' or '?', or
contains '. ', '! ' or '? ' as a substring, or is longer than 300 characters;
on such a flush an utterance is emitted iff the accumulated text is longer
than 8 characters, the emitted utterance carries the full accumulated text,
and the buffer is cleared whether or not anything was emitted; without a
flush the appended fragment stays in the buffer. -/
theorem aggregator_flush_policy (st : AggState) (text : List Char)
    (h1 : pyStrip text ≠ [])
    (h2 : ¬((pyStrip text).length ≤ 2 ∧
      ¬('.' ∈ pyStrip text ∨ '!' ∈ pyStrip text ∨ '?' ∈ pyStrip text))) :
    ((add_buffered_transcript st text).state.buffer = [] ↔
      flushConditionSpec (pyStrip (st.buffer ++ pyStrip text))) ∧
    ((add_buffered_transcript st text).emitted ≠ none ↔
      (flushConditionSpec (pyStrip (st.buffer ++ pyStrip text)) ∧
        8 < (pyStrip (st.buffer ++ pyStrip text)).length)) ∧
    (∀ u, (add_buffered_transcript st text).emitted = some u →
      u = pyStrip (st.buffer ++ pyStrip text)) ∧
    (¬flushConditionSpec (pyStrip (st.buffer ++ pyStrip text)) →
      (add_buffered_transcript st text).state.buffer = st.buffer ++ pyStrip text) := by
  rw [add_buffered_transcript, if_neg h1, if_neg h2]
  by_cases hs : should_save_now (pyStrip (st.buffer ++ pyStrip text)) = true
  · have hspec := (should_save_now_iff _).mp hs
    rw [if_pos hs]
    by_cases hlen : 8 < (pyStrip (st.buffer ++ pyStrip text)).length
    · have hne : pyStrip (st.buffer ++ pyStrip text) ≠ [] := by
        intro hnil
        rw [hnil] at hlen
        simp at hlen
      rw [if_pos ⟨hne, hlen⟩]
      refine ⟨by simpa using hspec, by simpa using ⟨hspec, hlen⟩, ?_, fun hc => absurd hspec hc⟩
      intro u hu
      exact (Option.some_injective _ hu).symm
    · rw [if_neg (fun hc => hlen hc.2)]
      have hle : (pyStrip (st.buffer ++ pyStrip text)).length ≤ 8 := Nat.le_of_not_lt hlen
      refine ⟨by simpa using hspec, by simpa using fun _ => hle, ?_,
        fun hc => absurd hspec hc⟩
      intro u hu
      exact absurd hu (by simp)
  · have hspec : ¬flushConditionSpec (pyStrip (st.buffer ++ pyStrip text)) :=
      fun hc => hs ((should_save_now_iff _).mpr hc)
    rw [if_neg hs]
    have hne : st.buffer ++ pyStrip text ≠ [] := by
      intro hnil
      exact h1 (List.append_eq_nil.mp hnil).2
    refine ⟨by simpa [hne] using hspec, ?_, fun u hu => absurd hu (by simp), fun _ => rfl⟩
    simp only [ne_eq, not_true_eq_false, false_iff, not_and]
    intro hc
    exact absurd hc hspec

theorem aggregator_flush_policy_witness :
    pyStrip " world.".toList ≠ [] ∧
    (add_buffered_transcript ⟨"Hello".toList, false⟩ " world.".toList).state.buffer = [] ∧
    (add_buffered_transcript ⟨"Hello".toList, false⟩ " world.".toList).emitted ≠ none := by
  have h := aggregator_flush_policy ⟨"Hello".toList, false⟩ " world.".toList
    (by decide) (by decide)
  exact ⟨by decide, h.1.mpr (Or.inl (by decide)), h.2.1.mpr ⟨Or.inl (by decide), by decide⟩⟩

/-- The transcript-buffer flush performed at session teardown by
`SimpleSupabaseBackend.close_session` (`backend/simple_supabase_backend.py`):
`for speaker, buffered_text in self.transcript_buffers[session_id].items():
if buffered_text.strip(): await self.add_transcript(..., buffered_text.strip(),
"session_cleanup")` — every non-blank buffer is emitted, with no length
check. -/
def close_session_flush (buffers : List (String × List Char)) :
    List (String × List Char) :=
  buffers.filterMap
    (fun p => if pyStrip p.2 = [] then none else some (p.1, pyStrip p.2))

/-- C5 counterexample: the buffer "hey" (reachable: appending the fragment
"hey" to an empty buffer stores it and emits nothing) has length 3 ≤ 8, yet
session teardown emits it as an utterance — `close_session` applies no
minimum-meaningful-length floor, contradicting the claim that teardown emits
nothing for buffers at or below the minimum length. -/
theorem session_end_flush_counterexample :
    (add_buffered_transcript ⟨[], false⟩ "hey".toList).state.buffer = "hey".toList ∧
    (add_buffered_transcript ⟨[], false⟩ "hey".toList).emitted = none ∧
    "hey".toList.length ≤ 8 ∧
    close_session_flush [("user", "hey".toList)] = [("user", "hey".toList)] := by
  decide

/-- C5 (amended): at session teardown every (speaker, buffer) entry whose
buffer has any non-whitespace content is flushed and emitted as an utterance
(reason `session_cleanup`), regardless of its length — no minimum-length floor
is applied at session end; only entirely blank buffers are skipped. -/
theorem close_session_flushes_every_nonblank_buffer
    (bs : List (String × List Char)) (sp : String) (b : List Char)
    (hmem : (sp, b) ∈ bs) (hne : pyStrip b ≠ []) :
    (sp, pyStrip b) ∈ close_session_flush bs := by
  simp only [close_session_flush, List.mem_filterMap]
  exact ⟨(sp, b), hmem, by simp [hne]⟩

theorem close_session_flushes_every_nonblank_buffer_witness :
    ("user", "um".toList) ∈ [("user", "um".toList)] ∧
    pyStrip "um".toList ≠ [] ∧
    ("user", pyStrip "um".toList) ∈ close_session_flush [("user", "um".toList)] := by
  exact ⟨by decide, by decide,
    close_session_flushes_every_nonblank_buffer [("user", "um".toList)] "user"
      "um".toList (by decide) (by decide)⟩

/-- Python dict lookup (`d.get(k)` / `k in d`), on an association list with
unique keys. -/
def dictGet? {α : Type} (l : List (String × α)) (k : String) : Option α :=
  match l with
  | [] => none
  | (k', v) :: rest => if k' = k then some v else dictGet? rest k

/-- Python dict store `d[k] = v`: replace in place if the key exists, else
append. -/
def dictInsert {α : Type} (l : List (String × α)) (k : String) (v : α) :
    List (String × α) :=
  match l with
  | [] => [(k, v)]
  | (k', v') :: rest =>
    if k' = k then (k, v) :: rest else (k', v') :: dictInsert rest k v

/-- Python `del d[k]` guarded by `if k in d`: drop the key's entries. -/
def dictErase {α : Type} (l : List (String × α)) (k : String) :
    List (String × α) :=
  l.filter (fun p => p.1 != k)

theorem dictGet_dictInsert_self {α : Type} (l : List (String × α)) (k : String)
    (v : α) : dictGet? (dictInsert l k v) k = some v := by
  induction l with
  | nil => simp [dictInsert, dictGet?]
  | cons p rest ih =>
    by_cases hk : p.1 = k
    · simp [dictInsert, hk, dictGet?]
    · simp [dictInsert, hk, dictGet?, ih]

theorem dictGet_dictErase_self {α : Type} (l : List (String × α)) (k : String) :
    dictGet? (dictErase l k) k = none := by
  induction l with
  | nil => rfl
  | cons p rest ih =>
    by_cases hk : p.1 = k
    · simpa [dictErase, List.filter_cons, hk] using ih
    · simpa [dictErase, List.filter_cons, hk, dictGet?] using ih

/-- The `SessionInfo` dataclass of `models.py`, restricted to the fields
`SessionManager` reads and writes (timestamps omitted; enum values carried as
their string values). -/
structure SessionInfo where
  session_id : String
  mode : String
  response_modality : String
  use_elevenlabs : Bool
  system_instruction : String
deriving DecidableEq, Repr

/-- State of `SessionManager` (`backend/session_manager.py`):
`self.active_sessions`, the key set of `self.session_locks`, and the loaded
`self.prompts` (mode key, resolved system instruction). -/
structure SessionManagerState where
  active_sessions : List (String × SessionInfo)
  session_locks : List String
  prompts : List (String × String)
deriving DecidableEq, Repr

/-- The members of the `SessionMode` enum in `models.py`: `SessionMode(mode)`
raises `ValueError` (caught, returning `None`) for any other string. -/
def sessionModeValues : List String :=
  ["amazon_interviewer", "google_interviewer", "technical_interview"]

/-- `SessionManager.create_session`: reject a mode absent from
`self.prompts` (returns `None`), build the `SessionInfo` (the `SessionMode`
constructor raises for strings outside the enum, caught as `None`), then store
it with `self.active_sessions[session_id] = session_info` and install a lock —
a plain dict store, with NO duplicate-id check of any kind. -/
def create_session (st : SessionManagerState) (sid mode modality : String)
    (useEl : Bool) : Option SessionInfo × SessionManagerState :=
  match dictGet? st.prompts mode with
  | none => (none, st)
  | some instr =>
    if mode ∈ sessionModeValues then
      (some ⟨sid, mode, modality, useEl, instr⟩,
        { st with
          active_sessions :=
            dictInsert st.active_sessions sid ⟨sid, mode, modality, useEl, instr⟩
          session_locks :=
            if sid ∈ st.session_locks then st.session_locks
            else st.session_locks ++ [sid] })
    else (none, st)

/-- `SessionManager.close_session`: `if session_id in self.active_sessions:
del ...`, same for the lock, `return True`.  Both deletions are guarded by
membership tests, so the `except` branch is unreachable and the call always
returns `True` (never raises). -/
def close_session (st : SessionManagerState) (sid : String) :
    Bool × SessionManagerState :=
  (true,
    { st with
      active_sessions := dictErase st.active_sessions sid
      session_locks := st.session_locks.filter (fun k => k != sid) })

def demoPrompts : List (String × String) :=
  [("amazon_interviewer", "amazon instruction"),
    ("google_interviewer", "google instruction")]

def demoInfoAmazon : SessionInfo :=
  ⟨"s", "amazon_interviewer", "AUDIO", false, "amazon instruction"⟩

/-- C7 counterexample: with session id "s" already present (CREATED/ACTIVE),
`create_session "s"` does not fail — it returns a fresh `SessionInfo` — and
the stored entry for "s" is replaced (its mode changes), so the existing
session's state is NOT left unchanged.  No `DuplicateSessionError` (or any
duplicate check) exists in the code. -/
theorem create_session_duplicate_counterexample :
    (create_session ⟨[("s", demoInfoAmazon)], ["s"], demoPrompts⟩ "s"
        "google_interviewer" "AUDIO" false).1.isSome = true ∧
    dictGet? (create_session ⟨[("s", demoInfoAmazon)], ["s"], demoPrompts⟩ "s"
        "google_interviewer" "AUDIO" false).2.active_sessions "s" ≠
      some demoInfoAmazon := by
  decide

/-- C7 (amended): calling `create_session` with a session id that is already
present does not fail: whenever the mode is valid, it succeeds and silently
overwrites the stored `SessionInfo` for that id with the newly created one. -/
theorem create_session_overwrites_existing (st : SessionManagerState)
    (sid mode modality : String) (useEl : Bool) (instr : String)
    (hmode : dictGet? st.prompts mode = some instr)
    (hvalid : mode ∈ sessionModeValues) :
    (create_session st sid mode modality useEl).1 =
      some ⟨sid, mode, modality, useEl, instr⟩ ∧
    dictGet? (create_session st sid mode modality useEl).2.active_sessions sid =
      some ⟨sid, mode, modality, useEl, instr⟩ := by
  rw [create_session, hmode]
  simp [hvalid, dictGet_dictInsert_self]

theorem create_session_overwrites_existing_witness :
    dictGet? demoPrompts "google_interviewer" = some "google instruction" ∧
    "google_interviewer" ∈ sessionModeValues ∧
    dictGet? (create_session ⟨[("s", demoInfoAmazon)], ["s"], demoPrompts⟩ "s"
        "google_interviewer" "AUDIO" false).2.active_sessions "s" =
      some ⟨"s", "google_interviewer", "AUDIO", false, "google instruction"⟩ := by
  exact ⟨by decide, by decide,
    (create_session_overwrites_existing ⟨[("s", demoInfoAmazon)], ["s"], demoPrompts⟩
      "s" "google_interviewer" "AUDIO" false "google instruction"
      (by decide) (by decide)).2⟩

/-- C8: for every registry state and every session id — known, unknown, or
already ended — `close_session` returns `True` without raising (the embedded
function is total; the guarded dict deletions cannot throw), and after the
call, as well as after a second consecutive call on the same id, the session
is absent from the registry. -/
theorem close_session_idempotent_never_raises (st : SessionManagerState)
    (sid : String) :
    (close_session st sid).1 = true ∧
    dictGet? (close_session st sid).2.active_sessions sid = none ∧
    (close_session (close_session st sid).2 sid).1 = true ∧
    dictGet? (close_session (close_session st sid).2 sid).2.active_sessions sid =
      none :=
  ⟨rfl, dictGet_dictErase_self st.active_sessions sid, rfl,
    dictGet_dictErase_self _ sid⟩

/-- State of `LiveAudioBackend` (`backend/main.py`) relevant to
`_handle_start_audio`: the key set of `self.audio_loops` (one running
`WebSocketAudioLoop`, i.e. one set of relay tasks plus one upstream
connection, per key) and the ids known to the session manager. -/
structure BackendAudioState where
  audio_loops : List String
  sessions : List String
deriving DecidableEq, Repr

/-- Every observable outcome of `_handle_start_audio`: the duplicate-start
early return (which only logs — it sends NO message to the client), the
"Session not found" error message, the "Failed to start audio" error message,
and the success path that stores the new loop and sends `audio_started`. -/
inductive StartAudioResult where
  | ignoredAlreadyRunning
  | errorSessionNotFound
  | errorStartFailed
  | started
deriving DecidableEq, Repr

/-- `LiveAudioBackend._handle_start_audio`: `if session_id in
self.audio_loops: print(...); return` — then the session lookup, then
`audio_loop.start()` (which may raise, modelled by `startSucceeds`), and on
success `self.audio_loops[session_id] = audio_loop`. -/
def handle_start_audio (st : BackendAudioState) (sid : String)
    (startSucceeds : Bool) : StartAudioResult × BackendAudioState :=
  if sid ∈ st.audio_loops then (.ignoredAlreadyRunning, st)
  else if sid ∉ st.sessions then (.errorSessionNotFound, st)
  else if startSucceeds then
    (.started, { st with audio_loops := st.audio_loops ++ [sid] })
  else (.errorStartFailed, st)

/-- C6 counterexample: requesting a start for session "s" whose relay is
already active does not fail with any error — the request is silently ignored
(only a log line; no error message is sent to the client and nothing is
raised; no `AlreadyActiveError` exists in the code), although indeed no second
set of relay tasks is created. -/
theorem start_audio_duplicate_counterexample :
    handle_start_audio ⟨["s"], ["s"]⟩ "s" true =
      (StartAudioResult.ignoredAlreadyRunning, ⟨["s"], ["s"]⟩) ∧
    (handle_start_audio ⟨["s"], ["s"]⟩ "s" true).1 ≠
      StartAudioResult.errorSessionNotFound ∧
    (handle_start_audio ⟨["s"], ["s"]⟩ "s" true).1 ≠
      StartAudioResult.errorStartFailed := by
  decide

/-- C6 (amended): a start request for a session id whose relay is already
active is silently ignored: the backend returns early without reporting any
error and without creating a second set of relay tasks or a second upstream
connection (the state is unchanged), and `_handle_start_audio` preserves
at-most-one-loop-per-id (`Nodup` of the loop table's keys). -/
theorem start_audio_duplicate_ignored (st : BackendAudioState) (sid : String)
    (b : Bool) :
    (sid ∈ st.audio_loops →
      handle_start_audio st sid b = (.ignoredAlreadyRunning, st)) ∧
    (st.audio_loops.Nodup →
      ((handle_start_audio st sid b).2).audio_loops.Nodup) := by
  constructor
  · intro hmem
    rw [handle_start_audio, if_pos hmem]
  · intro hnd
    rw [handle_start_audio]
    by_cases hmem : sid ∈ st.audio_loops
    · rw [if_pos hmem]
      exact hnd
    · rw [if_neg hmem]
      by_cases hsess : sid ∉ st.sessions
      · rw [if_pos hsess]
        exact hnd
      · rw [if_neg hsess]
        by_cases hb : b = true
        · rw [if_pos hb]
          simp only [List.nodup_append, List.nodup_singleton, true_and]
          exact ⟨hnd, by simpa using hmem⟩
        · rw [if_neg hb]
          exact hnd

theorem start_audio_duplicate_ignored_witness :
    ("s" ∈ (["s"] : List String)) ∧
    handle_start_audio ⟨["s"], ["s"]⟩ "s" true =
      (StartAudioResult.ignoredAlreadyRunning, ⟨["s"], ["s"]⟩) ∧
    ((handle_start_audio ⟨["s"], ["s"]⟩ "s" true).2).audio_loops.Nodup := by
  exact ⟨by decide,
    (start_audio_duplicate_ignored ⟨["s"], ["s"]⟩ "s" true).1 (by decide),
    (start_audio_duplicate_ignored ⟨["s"], ["s"]⟩ "s" true).2 (by decide)⟩
